import Mathlib

/-!
Verification of the deepscatter-webgpu core against its specification.

The embedding models the TypeScript sources:
* `src/unnamed/part_001` — class `ShallowTable`: `collectPoints`, `getBounds`,
  `normalizeCoordinate`, `getNormalizedPointsArray`.
* `src/src/webgpu/webgpu_sample.ts` — class `WebGPURenderer` (starfield variant
  with an opacity attribute buffer): `updateOpacities`, `render`.
* `src/unnamed/part_002` (first class) — class `WebGPURenderer` (point-list
  debug variant): `setDataArray`, `render`.
* `src/unnamed/part_003` — class `WebGPURenderer` (quad-expansion variant):
  `setDataArray`, `render`.

JavaScript `number` values are modelled as exact rationals extended with the
IEEE special values `NaN`, `+Infinity`, `-Infinity` (type `JSNum`), which is
what the claims about bounds initialization and division by zero are about.
GPU side effects are modelled as an explicit list of emitted `GPUOp`s, and a
JavaScript `throw` is modelled as the `.error` case of `Except String`.
-/

/-- Model of a JavaScript `number`: an exact finite rational or one of the
IEEE special values `NaN`, `+Infinity`, `-Infinity`. -/
inductive JSNum where
  | nan : JSNum
  | posInf : JSNum
  | negInf : JSNum
  | fin : ℚ → JSNum
deriving DecidableEq

/-- IEEE subtraction on `JSNum` (finite arithmetic kept exact). -/
def JSNum.sub : JSNum → JSNum → JSNum
  | .nan, _ => .nan
  | _, .nan => .nan
  | .posInf, .posInf => .nan
  | .posInf, _ => .posInf
  | .negInf, .negInf => .nan
  | .negInf, _ => .negInf
  | .fin _, .posInf => .negInf
  | .fin _, .negInf => .posInf
  | .fin a, .fin b => .fin (a - b)

/-- IEEE multiplication on `JSNum`. -/
def JSNum.mul : JSNum → JSNum → JSNum
  | .nan, _ => .nan
  | _, .nan => .nan
  | .posInf, .posInf => .posInf
  | .posInf, .negInf => .negInf
  | .negInf, .posInf => .negInf
  | .negInf, .negInf => .posInf
  | .posInf, .fin b => if b = 0 then .nan else if 0 < b then .posInf else .negInf
  | .fin a, .posInf => if a = 0 then .nan else if 0 < a then .posInf else .negInf
  | .negInf, .fin b => if b = 0 then .nan else if 0 < b then .negInf else .posInf
  | .fin a, .negInf => if a = 0 then .nan else if 0 < a then .negInf else .posInf
  | .fin a, .fin b => .fin (a * b)

/-- IEEE division on `JSNum`: division of a nonzero finite value by zero gives
a signed infinity, `0 / 0` gives `NaN`. -/
def JSNum.div : JSNum → JSNum → JSNum
  | .nan, _ => .nan
  | _, .nan => .nan
  | .posInf, .posInf => .nan
  | .posInf, .negInf => .nan
  | .negInf, .posInf => .nan
  | .negInf, .negInf => .nan
  | .posInf, .fin b => if 0 ≤ b then .posInf else .negInf
  | .negInf, .fin b => if 0 ≤ b then .negInf else .posInf
  | .fin _, .posInf => .fin 0
  | .fin _, .negInf => .fin 0
  | .fin a, .fin b =>
      if b = 0 then (if a = 0 then .nan else if 0 < a then .posInf else .negInf)
      else .fin (a / b)

/-- `Number.isFinite`: true exactly on finite values. -/
def JSNum.isFinite : JSNum → Bool
  | .fin _ => true
  | _ => false

/-- IEEE comparison `a <= b` on `JSNum` (false whenever `NaN` is involved). -/
def JSNum.le : JSNum → JSNum → Bool
  | .nan, _ => false
  | _, .nan => false
  | .negInf, _ => true
  | _, .posInf => true
  | .posInf, _ => false
  | _, .negInf => false
  | .fin a, .fin b => a ≤ b

/-- JavaScript `Math.min` on two arguments. -/
def jsMin : JSNum → JSNum → JSNum
  | .nan, _ => .nan
  | _, .nan => .nan
  | .negInf, _ => .negInf
  | _, .negInf => .negInf
  | .posInf, b => b
  | a, .posInf => a
  | .fin a, .fin b => .fin (min a b)

/-- JavaScript `Math.max` on two arguments. -/
def jsMax : JSNum → JSNum → JSNum
  | .nan, _ => .nan
  | _, .nan => .nan
  | .posInf, _ => .posInf
  | _, .posInf => .posInf
  | .negInf, b => b
  | a, .negInf => a
  | .fin a, .fin b => .fin (max a b)

/-- A tile of the deeptable, as consumed by `ShallowTable.collectPoints`
(`src/unnamed/part_001`): a set of loaded column names and the rows of its
record batch, each row carrying its numeric `x` and `y` fields. -/
structure Tile where
  loadedColumns : List String
  rows : List (ℚ × ℚ)

/-- `tile.hasLoadedColumn(name)` of the tile interface. -/
def Tile.hasLoadedColumn (t : Tile) (c : String) : Bool :=
  t.loadedColumns.contains c

/-- A tile is usable by `collectPoints` when both the `x` and the `y` column
are loaded (the negation of the early-return guard in `collectPoints`). -/
def tileUsable (t : Tile) : Bool :=
  t.hasLoadedColumn "x" && t.hasLoadedColumn "y"

/-- The accumulator mutated by the visitor inside `collectPoints`: the four
running bound variables (initialized to `±Infinity`) and the growing point
list. -/
structure CollectAcc where
  minX : JSNum
  minY : JSNum
  maxX : JSNum
  maxY : JSNum
  points : List (ℚ × ℚ)
deriving DecidableEq

/-- The accumulator state at the top of `collectPoints`:
`minX = minY = Infinity`, `maxX = maxY = -Infinity`, `this.points = []`. -/
def initAcc : CollectAcc :=
  { minX := .posInf, minY := .posInf, maxX := .negInf, maxY := .negInf, points := [] }

/-- The body of the inner `for (const row of tile.record_batch)` loop of
`collectPoints`: fold the row into the running min/max and push one point. -/
def visitRow (st : CollectAcc) (row : ℚ × ℚ) : CollectAcc :=
  { minX := jsMin st.minX (.fin row.1)
    minY := jsMin st.minY (.fin row.2)
    maxX := jsMax st.maxX (.fin row.1)
    maxY := jsMax st.maxY (.fin row.2)
    points := st.points ++ [row] }

/-- The visitor callback passed to `deeptable.visit` in `collectPoints`:
skip the tile entirely unless both required columns are loaded, otherwise
process every row. -/
def visitTile (st : CollectAcc) (t : Tile) : CollectAcc :=
  if tileUsable t then t.rows.foldl visitRow st else st

/-- `ShallowTable.collectPoints` over a tile source whose `visit` yields the
given tiles in order. -/
def collectPoints (tiles : List Tile) : CollectAcc :=
  tiles.foldl visitTile initAcc

/-- The number of rows in tiles that have both required columns loaded. -/
def usableRowCount (tiles : List Tile) : ℕ :=
  (tiles.map (fun t => if tileUsable t then t.rows.length else 0)).sum

/-- State of a `ShallowTable` instance (`src/unnamed/part_001`): its point
list and its `bounds` field, which is `null` until `collectPoints` has run. -/
structure ShallowTable where
  points : List (ℚ × ℚ)
  bounds : Option ((JSNum × JSNum) × (JSNum × JSNum))

/-- A freshly constructed `ShallowTable`: no points collected, `bounds = null`. -/
def ShallowTable.init : ShallowTable :=
  { points := [], bounds := none }

/-- The state-level effect of `ShallowTable.collectPoints`: the point list is
reset and refilled from the tiles and `this.bounds` is set from the running
min/max (unconditionally, even when no point was found). -/
def ShallowTable.collectPoints (tiles : List Tile) (_t : ShallowTable) : ShallowTable :=
  let acc := tiles.foldl visitTile initAcc
  { points := acc.points
    bounds := some ((acc.minX, acc.minY), (acc.maxX, acc.maxY)) }

/-- `ShallowTable.getBounds`: throws `Must call collectPoints first` while
`this.bounds` is still `null`, otherwise returns the stored bounds. -/
def ShallowTable.getBounds (t : ShallowTable) :
    Except String ((JSNum × JSNum) × (JSNum × JSNum)) :=
  match t.bounds with
  | none => .error "Must call collectPoints first"
  | some b => .ok b

/-- `ShallowTable.normalizeCoordinate`:
`(value - min) / (max - min) * 2 - 1` in JavaScript number arithmetic. -/
def normalizeCoordinate (value lo hi : JSNum) : JSNum :=
  (((value.sub lo).div (hi.sub lo)).mul (.fin 2)).sub (.fin 1)

/-- `ShallowTable.getNormalizedPointsArray`: the flat `[x1,y1,x2,y2,...]`
array with each coordinate normalized against the stored bounds. -/
def getNormalizedPointsArray (points : List (ℚ × ℚ))
    (bmin bmax : JSNum × JSNum) : List JSNum :=
  points.flatMap (fun p =>
    [normalizeCoordinate (.fin p.1) bmin.1 bmax.1,
     normalizeCoordinate (.fin p.2) bmin.2 bmax.2])

/-- GPU commands observable in the model: buffer creation (reallocation),
buffer writes, draw calls, and queue submission. Sizes are in bytes, as in
`GPUBuffer.size` / `writeBuffer`'s `byteLength`. -/
inductive GPUOp where
  | createBuffer : ℕ → GPUOp
  | writeBuffer : ℕ → GPUOp
  | draw : ℕ → GPUOp
  | submit : GPUOp
deriving DecidableEq

/-- The blend inside `updateOpacities` (`webgpu_sample.ts`):
`current + (target - current) * 0.4`. -/
def blendOpacity (current target : ℚ) : ℚ :=
  current + (target - current) * (2 / 5)

/-- The per-element random target of `updateOpacities`:
`0.05 + Math.random() * 0.95` where the random draw is `r`. -/
def randomTarget (r : ℚ) : ℚ :=
  1 / 20 + r * (19 / 20)

/-- The `for (let i = 0; i < 1000; i++)` loop of `updateOpacities`, with the
per-element random draws supplied as `rand`: every element is replaced by the
blend of its current value toward a fresh random target. -/
def updateOpacitiesLoop (rand : Fin 1000 → ℚ) (s : Fin 1000 → ℚ) : Fin 1000 → ℚ :=
  fun i => blendOpacity (s i) (randomTarget (rand i))

/-- `n` animator steps (`updateOpacities` invoked once per frame), with the
random draws of frame `k` supplied as `rand k`. -/
def stepOpacities (rand : ℕ → Fin 1000 → ℚ) : ℕ → (Fin 1000 → ℚ) → Fin 1000 → ℚ
  | 0, s => s
  | n + 1, s => stepOpacities rand n (updateOpacitiesLoop (rand n) s)

namespace Starfield

/-- State of the starfield `WebGPURenderer` (`src/src/webgpu/webgpu_sample.ts`):
all resources are nullable until `initialize()` completes. Buffers are
modelled by their byte size, the CPU-side `starOpacities` array by its
(always 1000-element) contents. -/
structure WebGPURenderer where
  device : Option Unit
  context : Option Unit
  pipeline : Option Unit
  vertexBuffer : Option ℕ
  opacityBuffer : Option ℕ
  starOpacities : Option (Fin 1000 → ℚ)

/-- `updateOpacities` of `webgpu_sample.ts`: silently returns when the
device, the opacity buffer or the opacities array is absent; otherwise blends
every opacity toward a fresh random target and writes the full 4000-byte
array to the existing GPU buffer (no reallocation). A JavaScript `throw`
would be the `.error` case; this method never takes it. -/
def WebGPURenderer.updateOpacities (rand : Fin 1000 → ℚ) (r : WebGPURenderer) :
    Except String (WebGPURenderer × List GPUOp) :=
  if r.device.isNone || r.opacityBuffer.isNone || r.starOpacities.isNone then
    .ok (r, [])
  else
    match r.starOpacities with
    | some so =>
        .ok ({ r with starOpacities := some (updateOpacitiesLoop rand so) },
             [GPUOp.writeBuffer 4000])
    | none => .ok (r, [])

/-- `render` of `webgpu_sample.ts`: silently returns when any of the six
required resources is absent; otherwise steps the animator, re-writes the
opacity buffer, and issues one pass drawing 1000 points. -/
def WebGPURenderer.render (rand : Fin 1000 → ℚ) (r : WebGPURenderer) :
    Except String (WebGPURenderer × List GPUOp) :=
  if r.device.isNone || r.context.isNone || r.pipeline.isNone ||
      r.vertexBuffer.isNone || r.opacityBuffer.isNone || r.starOpacities.isNone then
    .ok (r, [])
  else
    match WebGPURenderer.updateOpacities rand r with
    | .ok (r1, ops1) =>
        .ok (r1, ops1 ++ [GPUOp.writeBuffer 4000, GPUOp.draw 1000, GPUOp.submit])
    | .error e => .error e

end Starfield

namespace PointList

/-- State of the point-list debug `WebGPURenderer` (first class of
`src/unnamed/part_002`): the vertex buffer (modelled by its uploaded float
contents) and the tracked `vertexCount`, initially 0. -/
structure WebGPURenderer where
  vertexBuffer : Option (List ℚ)
  vertexCount : ℕ

/-- `setDataArray` of `part_002`: a null or empty input logs an error and
returns without touching any state; otherwise `vertexCount` becomes
`points.length / 2` and a fresh vertex buffer of `points.byteLength` bytes is
created and filled. -/
def WebGPURenderer.setDataArray (r : WebGPURenderer) (points : Option (List ℚ)) :
    WebGPURenderer × List GPUOp :=
  match points with
  | none => (r, [])
  | some ps =>
      if ps.length = 0 then (r, [])
      else
        ({ vertexBuffer := some ps, vertexCount := ps.length / 2 },
         [GPUOp.createBuffer (4 * ps.length), GPUOp.writeBuffer (4 * ps.length)])

/-- `render` of `part_002`: warns and returns when no vertex buffer exists or
the vertex count is zero; otherwise issues one draw of `vertexCount`
vertices and submits. -/
def WebGPURenderer.render (r : WebGPURenderer) : List GPUOp :=
  match r.vertexBuffer with
  | none => []
  | some _ => if r.vertexCount = 0 then [] else [GPUOp.draw r.vertexCount, GPUOp.submit]

end PointList

/-- The pairing of a flat `[x1,y1,x2,y2,...]` array into points, as read by
the `for (let i = 0; i < numPoints; i++)` loop of `part_003`'s
`setDataArray` (`numPoints = points.length / 2`). -/
def toPairs : List ℚ → List (ℚ × ℚ)
  | x :: y :: rest => (x, y) :: toPairs rest
  | _ => []

/-- The vertex-expansion loop of `part_003`'s `setDataArray`: each point is
written six times (two triangles forming a quad), every vertex carrying the
point's own `(x, y)`. -/
def quadExpand : List (ℚ × ℚ) → List ℚ
  | [] => []
  | (x, y) :: rest =>
      x :: y :: x :: y :: x :: y :: x :: y :: x :: y :: x :: y :: quadExpand rest

namespace Quad

/-- State of the quad-expansion `WebGPURenderer` (`src/unnamed/part_003`). -/
structure WebGPURenderer where
  vertexBuffer : Option (List ℚ)
  vertexCount : ℕ

/-- `setDataArray` of `part_003`: a null or empty input returns without
touching state; otherwise `vertexCount` becomes `numPoints * 6`, and the
vertex buffer is recreated with six `(x, y)` vertices per point. -/
def WebGPURenderer.setDataArray (r : WebGPURenderer) (points : Option (List ℚ)) :
    WebGPURenderer × List GPUOp :=
  match points with
  | none => (r, [])
  | some ps =>
      if ps.length = 0 then (r, [])
      else
        let vertexData := quadExpand (toPairs ps)
        ({ vertexBuffer := some vertexData, vertexCount := ps.length / 2 * 6 },
         [GPUOp.createBuffer (4 * vertexData.length),
          GPUOp.writeBuffer (4 * vertexData.length)])

/-- `render` of `part_003`: warns and returns when no vertex buffer exists or
the vertex count is zero; otherwise issues one draw of `vertexCount`
vertices and submits. -/
def WebGPURenderer.render (r : WebGPURenderer) : List GPUOp :=
  match r.vertexBuffer with
  | none => []
  | some _ => if r.vertexCount = 0 then [] else [GPUOp.draw r.vertexCount, GPUOp.submit]

end Quad

lemma jsMin_posInf_fin (x : ℚ) : jsMin .posInf (.fin x) = .fin x := rfl

lemma jsMin_fin_fin (a x : ℚ) : jsMin (.fin a) (.fin x) = .fin (min a x) := rfl

lemma jsMax_negInf_fin (x : ℚ) : jsMax .negInf (.fin x) = .fin x := rfl

lemma jsMax_fin_fin (a x : ℚ) : jsMax (.fin a) (.fin x) = .fin (max a x) := rfl

/-- The accumulator is still in its initial degenerate configuration:
`min = (+Infinity, +Infinity)`, `max = (-Infinity, -Infinity)`. -/
def accDegenerate (st : CollectAcc) : Prop :=
  st.minX = .posInf ∧ st.minY = .posInf ∧ st.maxX = .negInf ∧ st.maxY = .negInf

/-- The accumulator carries finite, correctly ordered bounds. -/
def accOrdered (st : CollectAcc) : Prop :=
  ∃ a b c d : ℚ, st.minX = .fin a ∧ st.maxX = .fin b ∧ a ≤ b ∧
    st.minY = .fin c ∧ st.maxY = .fin d ∧ c ≤ d

/-- Invariant of the `collectPoints` fold: either at least one row has been
folded in and the bounds are finite and ordered, or no row has been folded in
and the bounds are still the swapped infinities. -/
def accInv (st : CollectAcc) : Prop :=
  (accOrdered st ∧ st.points ≠ []) ∨ (accDegenerate st ∧ st.points = [])

lemma visitRow_inv (st : CollectAcc) (row : ℚ × ℚ) (h : accInv st) :
    accOrdered (visitRow st row) ∧ (visitRow st row).points ≠ [] := by
  constructor
  · rcases h with ⟨⟨a, b, c, d, h1, h2, h3, h4, h5, h6⟩, -⟩ | ⟨⟨h1, h2, h3, h4⟩, -⟩
    · refine ⟨min a row.1, max b row.1, min c row.2, max d row.2, ?_, ?_, ?_, ?_, ?_, ?_⟩
      · simp [visitRow, h1, jsMin_fin_fin]
      · simp [visitRow, h2, jsMax_fin_fin]
      · exact le_trans (min_le_right a row.1) (le_max_right b row.1)
      · simp [visitRow, h4, jsMin_fin_fin]
      · simp [visitRow, h5, jsMax_fin_fin]
      · exact le_trans (min_le_right c row.2) (le_max_right d row.2)
    · exact ⟨row.1, row.1, row.2, row.2, by
        simp [visitRow, h1, h2, h3, h4, jsMin_posInf_fin, jsMax_negInf_fin]⟩
  · simp [visitRow]

lemma foldl_visitRow_inv (rows : List (ℚ × ℚ)) :
    ∀ st : CollectAcc, accInv st → accInv (rows.foldl visitRow st) := by
  induction rows with
  | nil => intro st h; exact h
  | cons r rest ih =>
      intro st h
      exact ih (visitRow st r) (Or.inl (visitRow_inv st r h))

lemma visitTile_inv (st : CollectAcc) (t : Tile) (h : accInv st) :
    accInv (visitTile st t) := by
  unfold visitTile
  split
  · exact foldl_visitRow_inv t.rows st h
  · exact h

lemma foldl_visitTile_inv (tiles : List Tile) :
    ∀ st : CollectAcc, accInv st → accInv (tiles.foldl visitTile st) := by
  induction tiles with
  | nil => intro st h; exact h
  | cons t rest ih =>
      intro st h
      exact ih (visitTile st t) (visitTile_inv st t h)

lemma collectPoints_inv (tiles : List Tile) : accInv (collectPoints tiles) :=
  foldl_visitTile_inv tiles initAcc (Or.inr ⟨⟨rfl, rfl, rfl, rfl⟩, rfl⟩)

lemma foldl_visitRow_points (rows : List (ℚ × ℚ)) :
    ∀ st : CollectAcc, (rows.foldl visitRow st).points = st.points ++ rows := by
  induction rows with
  | nil => intro st; simp
  | cons r rest ih =>
      intro st
      rw [List.foldl_cons, ih (visitRow st r)]
      simp [visitRow]

lemma visitTile_points (st : CollectAcc) (t : Tile) :
    (visitTile st t).points = st.points ++ (if tileUsable t then t.rows else []) := by
  unfold visitTile
  split <;> simp [foldl_visitRow_points]

lemma foldl_visitTile_length (tiles : List Tile) :
    ∀ st : CollectAcc,
      (tiles.foldl visitTile st).points.length = st.points.length + usableRowCount tiles := by
  induction tiles with
  | nil => intro st; simp [usableRowCount]
  | cons t rest ih =>
      intro st
      rw [List.foldl_cons, ih (visitTile st t)]
      have h := visitTile_points st t
      simp only [usableRowCount, List.map_cons, List.sum_cons] at h ⊢
      rw [h]
      split <;> (simp [usableRowCount]; try omega)

/-- The number of points `collectPoints` gathers is exactly the number of
rows in tiles with both required columns loaded. -/
lemma collectPoints_length (tiles : List Tile) :
    (collectPoints tiles).points.length = usableRowCount tiles := by
  rw [collectPoints, foldl_visitTile_length tiles initAcc]
  simp [initAcc]

/-- C2, counterexample: a tile source consisting of one tile whose `x` and
`y` columns are both loaded but whose record batch has zero rows is "a tile
source with at least one usable tile", yet `collectPoints` leaves the bounds
at the swapped infinities, so `bounds.min.x ≤ bounds.max.x` fails. -/
theorem collectPoints_emptyUsableTile_cex :
    (∃ t ∈ [({ loadedColumns := ["x", "y"], rows := [] } : Tile)], tileUsable t = true)
  ∧ JSNum.le (collectPoints [{ loadedColumns := ["x", "y"], rows := [] }]).minX
      (collectPoints [{ loadedColumns := ["x", "y"], rows := [] }]).maxX = false := by
  refine ⟨⟨_, List.mem_singleton.mpr rfl, by decide⟩, by decide⟩

/-- C2 (amended): for every tile source holding at least one usable point
(a row in a tile with both the `x` and `y` columns loaded), `collectPoints`
returns bounds with `min.x ≤ max.x` and `min.y ≤ max.y`, and the number of
collected points equals the sum of row counts over exactly the tiles with
both required columns loaded — tiles missing a column contribute nothing. -/
theorem collectPoints_bounds_and_count (tiles : List Tile)
    (h : 0 < usableRowCount tiles) :
    JSNum.le (collectPoints tiles).minX (collectPoints tiles).maxX = true
  ∧ JSNum.le (collectPoints tiles).minY (collectPoints tiles).maxY = true
  ∧ (collectPoints tiles).points.length = usableRowCount tiles := by
  have hlen := collectPoints_length tiles
  rcases collectPoints_inv tiles with ⟨⟨a, b, c, d, h1, h2, h3, h4, h5, h6⟩, -⟩ | ⟨-, hp⟩
  · refine ⟨?_, ?_, hlen⟩
    · rw [h1, h2]; simp [JSNum.le, h3]
    · rw [h4, h5]; simp [JSNum.le, h6]
  · rw [hp] at hlen
    simp only [List.length_nil] at hlen
    omega

/-- Witness for `collectPoints_bounds_and_count`: one usable tile with two
rows. -/
theorem collectPoints_bounds_and_count_witness :
    JSNum.le (collectPoints [{ loadedColumns := ["x", "y"], rows := [(1, 2), (3, 4)] }]).minX
      (collectPoints [{ loadedColumns := ["x", "y"], rows := [(1, 2), (3, 4)] }]).maxX = true
  ∧ JSNum.le (collectPoints [{ loadedColumns := ["x", "y"], rows := [(1, 2), (3, 4)] }]).minY
      (collectPoints [{ loadedColumns := ["x", "y"], rows := [(1, 2), (3, 4)] }]).maxY = true
  ∧ (collectPoints [{ loadedColumns := ["x", "y"], rows := [(1, 2), (3, 4)] }]).points.length =
      usableRowCount [{ loadedColumns := ["x", "y"], rows := [(1, 2), (3, 4)] }] :=
  collectPoints_bounds_and_count
    [{ loadedColumns := ["x", "y"], rows := [(1, 2), (3, 4)] }] (by decide)

/-- C5: when zero usable points are found, `collectPoints` terminates
normally and returns the uninitialized limits with min and max swapped:
`min = (+Infinity, +Infinity)`, `max = (-Infinity, -Infinity)`, and an empty
point list. -/
theorem collectPoints_degenerate_bounds (tiles : List Tile)
    (h : usableRowCount tiles = 0) :
    (collectPoints tiles).minX = .posInf ∧ (collectPoints tiles).minY = .posInf
  ∧ (collectPoints tiles).maxX = .negInf ∧ (collectPoints tiles).maxY = .negInf
  ∧ (collectPoints tiles).points = [] := by
  have hlen := collectPoints_length tiles
  rw [h] at hlen
  have hp : (collectPoints tiles).points = [] := List.length_eq_zero.mp hlen
  rcases collectPoints_inv tiles with ⟨-, hne⟩ | ⟨⟨h1, h2, h3, h4⟩, -⟩
  · exact absurd hp hne
  · exact ⟨h1, h2, h3, h4, hp⟩

/-- Witness for `collectPoints_degenerate_bounds`: a tile with rows but with
the `y` column not loaded contributes no usable point. -/
theorem collectPoints_degenerate_bounds_witness :
    (collectPoints [{ loadedColumns := ["x"], rows := [(1, 2)] }]).minX = .posInf
  ∧ (collectPoints [{ loadedColumns := ["x"], rows := [(1, 2)] }]).minY = .posInf
  ∧ (collectPoints [{ loadedColumns := ["x"], rows := [(1, 2)] }]).maxX = .negInf
  ∧ (collectPoints [{ loadedColumns := ["x"], rows := [(1, 2)] }]).maxY = .negInf
  ∧ (collectPoints [{ loadedColumns := ["x"], rows := [(1, 2)] }]).points = [] :=
  collectPoints_degenerate_bounds [{ loadedColumns := ["x"], rows := [(1, 2)] }] (by decide)

/-- C9: `getBounds` on a fresh `ShallowTable` (bounds still `null`) throws
`Must call collectPoints first` instead of returning degenerate bounds, and
after `collectPoints` it returns exactly the bounds that collection pass
computed. -/
theorem getBounds_requires_collect :
    ShallowTable.getBounds ShallowTable.init = .error "Must call collectPoints first"
  ∧ ∀ (tiles : List Tile) (t : ShallowTable),
      (ShallowTable.collectPoints tiles t).getBounds =
        .ok (((collectPoints tiles).minX, (collectPoints tiles).minY),
             ((collectPoints tiles).maxX, (collectPoints tiles).maxY)) :=
  ⟨rfl, fun _ _ => rfl⟩

/-- With finite bounds of nonzero extent, `normalizeCoordinate` computes the
exact rational `(v - lo) / (hi - lo) * 2 - 1`. -/
lemma normalizeCoordinate_fin (v lo hi : ℚ) (h : hi - lo ≠ 0) :
    normalizeCoordinate (.fin v) (.fin lo) (.fin hi) =
      .fin ((v - lo) / (hi - lo) * 2 - 1) := by
  simp [normalizeCoordinate, JSNum.sub, JSNum.div, JSNum.mul, h]

/-- C1: with nonzero extent on both axes, normalization maps a coordinate
`v` to `(v - min) / (max - min) * 2 - 1`; consequently a point at
`bounds.min` normalizes to `(-1, -1)`, a point at `bounds.max` to `(1, 1)`,
and the bounds midpoint to `(0, 0)`. -/
theorem normalize_formula_and_roundtrip (mnx mxx mny mxy : ℚ)
    (hx : mnx ≠ mxx) (hy : mny ≠ mxy) :
    (∀ v : ℚ, normalizeCoordinate (.fin v) (.fin mnx) (.fin mxx) =
        .fin ((v - mnx) / (mxx - mnx) * 2 - 1))
  ∧ getNormalizedPointsArray [(mnx, mny)] (.fin mnx, .fin mny) (.fin mxx, .fin mxy) =
      [.fin (-1), .fin (-1)]
  ∧ getNormalizedPointsArray [(mxx, mxy)] (.fin mnx, .fin mny) (.fin mxx, .fin mxy) =
      [.fin 1, .fin 1]
  ∧ getNormalizedPointsArray [((mnx + mxx) / 2, (mny + mxy) / 2)]
      (.fin mnx, .fin mny) (.fin mxx, .fin mxy) = [.fin 0, .fin 0] := by
  have hdx : mxx - mnx ≠ 0 := sub_ne_zero.mpr (Ne.symm hx)
  have hdy : mxy - mny ≠ 0 := sub_ne_zero.mpr (Ne.symm hy)
  refine ⟨fun v => normalizeCoordinate_fin v mnx mxx hdx, ?_, ?_, ?_⟩
  · simp [getNormalizedPointsArray, normalizeCoordinate_fin _ _ _ hdx,
      normalizeCoordinate_fin _ _ _ hdy]
  · simp [getNormalizedPointsArray, normalizeCoordinate_fin _ _ _ hdx,
      normalizeCoordinate_fin _ _ _ hdy]
    constructor
    · rw [div_self hdx]; norm_num
    · rw [div_self hdy]; norm_num
  · simp [getNormalizedPointsArray, normalizeCoordinate_fin _ _ _ hdx,
      normalizeCoordinate_fin _ _ _ hdy]
    constructor
    · field_simp
      ring
    · field_simp
      ring

/-- Witness for `normalize_formula_and_roundtrip` at bounds `[0,2] × [10,20]`. -/
theorem normalize_formula_and_roundtrip_witness :
    normalizeCoordinate (.fin 5) (.fin 0) (.fin 2) = .fin ((5 - 0) / (2 - 0) * 2 - 1)
  ∧ getNormalizedPointsArray [(0, 10)] (.fin 0, .fin 10) (.fin 2, .fin 20) =
      [.fin (-1), .fin (-1)]
  ∧ getNormalizedPointsArray [((0 + 2) / 2, (10 + 20) / 2)] (.fin 0, .fin 10)
      (.fin 2, .fin 20) = [.fin 0, .fin 0] :=
  ⟨(normalize_formula_and_roundtrip 0 2 10 20 (by norm_num) (by norm_num)).1 5,
   (normalize_formula_and_roundtrip 0 2 10 20 (by norm_num) (by norm_num)).2.1,
   (normalize_formula_and_roundtrip 0 2 10 20 (by norm_num) (by norm_num)).2.2.2⟩

/-- With zero extent (`hi = lo`), `normalizeCoordinate` hits the division by
zero: `0 / 0` when the value sits on the bound, a signed infinity otherwise. -/
lemma normalizeCoordinate_degenerate_cases (v m : ℚ) :
    normalizeCoordinate (.fin v) (.fin m) (.fin m) =
      if v = m then .nan else if m < v then .posInf else .negInf := by
  have hm : m - m = 0 := sub_self m
  rcases lt_trichotomy v m with hlt | heq | hgt
  · have h1 : ¬v = m := ne_of_lt hlt
    have h2 : ¬m < v := not_lt_of_lt hlt
    have h3 : v - m ≠ 0 := sub_ne_zero.mpr h1
    have h4 : ¬0 < v - m := by simpa [sub_pos] using h2
    simp [normalizeCoordinate, JSNum.sub, JSNum.div, JSNum.mul, hm, h1, h2, h3, h4]
  · subst heq
    simp [normalizeCoordinate, JSNum.sub, JSNum.div, JSNum.mul, hm]
  · have h1 : ¬v = m := ne_of_gt hgt
    have h2 : m < v := hgt
    have h3 : 0 < v - m := sub_pos.mpr hgt
    simp [normalizeCoordinate, JSNum.sub, JSNum.div, JSNum.mul, hm, h1, h2,
      h3.ne', h3, (by norm_num : ¬(2 : ℚ) = 0), (by norm_num : (0 : ℚ) < 2)]

/-- C7: with `max = min` on an axis, normalizing any coordinate on that axis
performs the division by zero and emits a non-finite value instead of
raising an error (`NaN` for a coordinate equal to the bound — the only case
arising from collected points — and a signed infinity otherwise); the whole
output of `getNormalizedPointsArray` for such a point is `NaN`s. There is no
extent guard anywhere in the function: the caller must check. -/
theorem normalize_zero_extent_nan : ∀ v m : ℚ,
    (normalizeCoordinate (.fin v) (.fin m) (.fin m)).isFinite = false
  ∧ normalizeCoordinate (.fin m) (.fin m) (.fin m) = .nan
  ∧ getNormalizedPointsArray [(m, m)] (.fin m, .fin m) (.fin m, .fin m) =
      [.nan, .nan] := by
  intro v m
  refine ⟨?_, ?_, ?_⟩
  · rw [normalizeCoordinate_degenerate_cases]
    rcases lt_trichotomy v m with h | h | h
    · simp [JSNum.isFinite, ne_of_lt h, not_lt_of_lt h]
    · simp [JSNum.isFinite, h]
    · simp [JSNum.isFinite, ne_of_gt h, h]
  · rw [normalizeCoordinate_degenerate_cases]
    simp
  · simp [getNormalizedPointsArray]
    rw [normalizeCoordinate_degenerate_cases]
    simp

/-- A random draw in `[0, 1)` puts the target of `updateOpacities` in
`[0.05, 1]`. -/
lemma randomTarget_mem (r : ℚ) (h0 : 0 ≤ r) (h1 : r < 1) :
    1 / 20 ≤ randomTarget r ∧ randomTarget r ≤ 1 := by
  unfold randomTarget
  constructor <;> nlinarith

/-- Blending a current value in `[0, 1]` toward a target in `[0.05, 1]` by
factor `0.4` stays in `[0, 1]`. -/
lemma blendOpacity_mem (c t : ℚ) (hc0 : 0 ≤ c) (hc1 : c ≤ 1)
    (ht0 : 1 / 20 ≤ t) (ht1 : t ≤ 1) :
    0 ≤ blendOpacity c t ∧ blendOpacity c t ≤ 1 := by
  unfold blendOpacity
  constructor <;> nlinarith

lemma stepOpacities_mem (rand : ℕ → Fin 1000 → ℚ)
    (hr : ∀ k i, 0 ≤ rand k i ∧ rand k i < 1) :
    ∀ (n : ℕ) (s : Fin 1000 → ℚ), (∀ i, 0 ≤ s i ∧ s i ≤ 1) →
      ∀ i, 0 ≤ stepOpacities rand n s i ∧ stepOpacities rand n s i ≤ 1 := by
  intro n
  induction n with
  | zero => intro s hs i; exact hs i
  | succ n ih =>
      intro s hs i
      refine ih (updateOpacitiesLoop (rand n) s) (fun j => ?_) i
      have ht := randomTarget_mem (rand n j) (hr n j).1 (hr n j).2
      exact blendOpacity_mem (s j) (randomTarget (rand n j))
        (hs j).1 (hs j).2 ht.1 ht.2

/-- C3: each animator step replaces every element by
`current + (target - current) * 0.4` with a target drawn in `[0.05, 1]`, and
for every starting state inside `[0, 1]` and every number of steps, every
opacity value remains within `[0, 1]` — the blend never overshoots. -/
theorem updateOpacities_no_overshoot (s : Fin 1000 → ℚ) (rand : ℕ → Fin 1000 → ℚ)
    (hs : ∀ i, 0 ≤ s i ∧ s i ≤ 1) (hr : ∀ k i, 0 ≤ rand k i ∧ rand k i < 1) :
    (∀ r s' i, updateOpacitiesLoop r s' i =
        s' i + (randomTarget (r i) - s' i) * (2 / 5))
  ∧ (∀ k i, 1 / 20 ≤ randomTarget (rand k i) ∧ randomTarget (rand k i) ≤ 1)
  ∧ ∀ (n : ℕ) (i : Fin 1000),
      0 ≤ stepOpacities rand n s i ∧ stepOpacities rand n s i ≤ 1 :=
  ⟨fun _ _ _ => rfl,
   fun k i => randomTarget_mem (rand k i) (hr k i).1 (hr k i).2,
   fun n i => stepOpacities_mem rand hr n s hs i⟩

/-- Witness for `updateOpacities_no_overshoot`: a constant state `1/2` and a
constant random source `1/3`, run for 1000 steps, stays in `[0, 1]`. -/
theorem updateOpacities_no_overshoot_witness :
    0 ≤ stepOpacities (fun _ _ => 1 / 3) 1000 (fun _ => 1 / 2) 0
  ∧ stepOpacities (fun _ _ => 1 / 3) 1000 (fun _ => 1 / 2) 0 ≤ 1 :=
  (updateOpacities_no_overshoot (fun _ => 1 / 2) (fun _ _ => 1 / 3)
    (fun _ => by norm_num) (fun _ _ => by norm_num)).2.2 1000 0

/-- C4: whenever any required resource of the starfield renderer (device,
context, pipeline, position buffer, or opacity attribute buffer) is absent,
`render` performs zero GPU operations — in particular zero draw submissions —
raises no exception, and leaves the renderer state unchanged. -/
theorem render_silent_noop_when_not_ready (r : Starfield.WebGPURenderer)
    (rand : Fin 1000 → ℚ)
    (h : r.device = none ∨ r.context = none ∨ r.pipeline = none ∨
      r.vertexBuffer = none ∨ r.opacityBuffer = none) :
    Starfield.WebGPURenderer.render rand r = .ok (r, []) := by
  rcases h with h | h | h | h | h <;> simp [Starfield.WebGPURenderer.render, h]

/-- Witness for `render_silent_noop_when_not_ready`: everything allocated
except the device. -/
theorem render_silent_noop_when_not_ready_witness :
    Starfield.WebGPURenderer.render (fun _ => 0)
      ⟨none, some (), some (), some 8000, some 4000, some (fun _ => 0)⟩ =
      .ok (⟨none, some (), some (), some 8000, some 4000, some (fun _ => 0)⟩, []) :=
  render_silent_noop_when_not_ready
    ⟨none, some (), some (), some 8000, some 4000, some (fun _ => 0)⟩
    (fun _ => 0) (Or.inl rfl)

/-- C6, counterexample: calling `updateOpacities` on a state whose opacity
buffer was never allocated does NOT surface an error — it silently returns
`.ok` with the state unchanged and no GPU write, refuting the claim that the
missing-buffer case is surfaced loudly. -/
theorem updateOpacities_missing_buffer_cex :
    Starfield.WebGPURenderer.updateOpacities (fun _ => 0)
      ⟨some (), some (), some (), some 8000, none, some (fun _ => 0)⟩ =
      .ok (⟨some (), some (), some (), some 8000, none, some (fun _ => 0)⟩, []) := rfl

/-- C6 (amended): calling `updateOpacities` when the device, the opacity
buffer, or the opacities array is absent is silently ignored (an `.ok`
no-op, not an error); when they all exist, the update blends every element
and writes the full 4000-byte attribute buffer in place — one `writeBuffer`,
no `createBuffer`, and the buffer handle field is unchanged. -/
theorem updateOpacities_inplace_write (r : Starfield.WebGPURenderer)
    (rand : Fin 1000 → ℚ) :
    (r.opacityBuffer = none →
      Starfield.WebGPURenderer.updateOpacities rand r = .ok (r, []))
  ∧ ∀ so, r.device = some () → r.opacityBuffer.isSome = true →
      r.starOpacities = some so →
      Starfield.WebGPURenderer.updateOpacities rand r =
        .ok ({ r with starOpacities := some (updateOpacitiesLoop rand so) },
             [GPUOp.writeBuffer 4000]) := by
  constructor
  · intro h
    simp [Starfield.WebGPURenderer.updateOpacities, h]
  · intro so hd hb hs
    rcases Option.isSome_iff_exists.mp hb with ⟨v, hv⟩
    have hd' : r.device.isNone = false := by simp [hd]
    have hb' : r.opacityBuffer.isNone = false := by simp [hv]
    have hs' : r.starOpacities.isNone = false := by simp [hs]
    simp [Starfield.WebGPURenderer.updateOpacities, hd', hb', hs', hs]

/-- Witness for `updateOpacities_inplace_write`: a fully allocated renderer. -/
theorem updateOpacities_inplace_write_witness :
    Starfield.WebGPURenderer.updateOpacities (fun _ => 0)
      ⟨some (), some (), some (), some 8000, some 4000, some (fun _ => 0)⟩ =
      .ok (⟨some (), some (), some (), some 8000, some 4000,
        some (updateOpacitiesLoop (fun _ => 0) (fun _ => 0))⟩,
        [GPUOp.writeBuffer 4000]) :=
  (updateOpacities_inplace_write
    ⟨some (), some (), some (), some 8000, some 4000, some (fun _ => 0)⟩
    (fun _ => 0)).2 (fun _ => 0) rfl rfl rfl

lemma toPairs_length : ∀ ps : List ℚ, (toPairs ps).length = ps.length / 2
  | [] => rfl
  | [_] => by simp [toPairs]
  | _ :: _ :: rest => by
      simp only [toPairs, List.length_cons, toPairs_length rest]
      omega

lemma quadExpand_length : ∀ L : List (ℚ × ℚ), (quadExpand L).length = 12 * L.length
  | [] => rfl
  | (x, y) :: rest => by
      simp only [quadExpand, List.length_cons, quadExpand_length rest]
      ring

/-- Dropping the first point's twelve floats from the expansion yields the
expansion of the remaining points. -/
lemma quadExpand_drop_twelve (x y : ℚ) (rest : List (ℚ × ℚ)) :
    (quadExpand ((x, y) :: rest)).drop 12 = quadExpand rest := rfl

/-- The `i`-th block of six vertices in the expanded buffer consists of six
copies of the `i`-th point's `(x, y)`. -/
lemma quadExpand_chunk : ∀ (L : List (ℚ × ℚ)) (i : ℕ), i < L.length →
    ∃ x y, L.get? i = some (x, y) ∧
      ((quadExpand L).drop (12 * i)).take 12 =
        [x, y, x, y, x, y, x, y, x, y, x, y] := by
  intro L
  induction L with
  | nil => intro i h; simp at h
  | cons p rest ih =>
      intro i h
      obtain ⟨x, y⟩ := p
      match i with
      | 0 => exact ⟨x, y, rfl, rfl⟩
      | i + 1 =>
          obtain ⟨a, b, hab, hchunk⟩ := ih i (by simpa using Nat.lt_of_succ_lt_succ h)
          refine ⟨a, b, hab, ?_⟩
          have hdrop : (quadExpand ((x, y) :: rest)).drop (12 * (i + 1)) =
              (quadExpand rest).drop (12 * i) := by
            rw [show 12 * (i + 1) = 12 + 12 * i by ring, ← List.drop_drop,
              quadExpand_drop_twelve]
          rw [hdrop, hchunk]

/-- C8: in the quad-expansion renderer, `setDataArray` on a non-empty array
of `2 * N` floats builds a vertex buffer of exactly six vertices per point —
the `i`-th six all carrying point `i`'s `(x, y)` — sets the vertex count to
`6 * N`, and a subsequent `render` issues exactly one draw call covering
exactly that vertex count. -/
theorem setDataArray_quad_expansion (r : Quad.WebGPURenderer) (ps : List ℚ)
    (N : ℕ) (hlen : ps.length = 2 * N) (hpos : 0 < N) :
    (Quad.WebGPURenderer.setDataArray r (some ps)).1.vertexCount = 6 * N
  ∧ (∃ data : List ℚ,
      (Quad.WebGPURenderer.setDataArray r (some ps)).1.vertexBuffer = some data
      ∧ data.length = 12 * N
      ∧ ∀ i, i < N → ∃ x y, (toPairs ps).get? i = some (x, y) ∧
          (data.drop (12 * i)).take 12 = [x, y, x, y, x, y, x, y, x, y, x, y])
  ∧ Quad.WebGPURenderer.render (Quad.WebGPURenderer.setDataArray r (some ps)).1 =
      [GPUOp.draw (6 * N), GPUOp.submit] := by
  have hne : ¬ps.length = 0 := by omega
  have hN : ps.length / 2 = N := by omega
  have hpairs : (toPairs ps).length = N := by rw [toPairs_length, hN]
  have hset : (Quad.WebGPURenderer.setDataArray r (some ps)).1 =
      { vertexBuffer := some (quadExpand (toPairs ps)),
        vertexCount := ps.length / 2 * 6 } := by
    simp [Quad.WebGPURenderer.setDataArray, hne]
  refine ⟨?_, ⟨quadExpand (toPairs ps), ?_, ?_, ?_⟩, ?_⟩
  · rw [hset]; simp [hN]; ring
  · rw [hset]
  · rw [quadExpand_length, hpairs]
  · intro i hi
    exact quadExpand_chunk (toPairs ps) i (by rw [hpairs]; exact hi)
  · rw [hset]
    have h6 : ¬N * 6 = 0 := by omega
    simp [Quad.WebGPURenderer.render, hN, h6, Nat.mul_comm]

/-- Witness for `setDataArray_quad_expansion`: two points. -/
theorem setDataArray_quad_expansion_witness :
    (Quad.WebGPURenderer.setDataArray ⟨none, 0⟩ (some [1, 2, 3, 4])).1.vertexCount = 6 * 2
  ∧ Quad.WebGPURenderer.render
      (Quad.WebGPURenderer.setDataArray ⟨none, 0⟩ (some [1, 2, 3, 4])).1 =
      [GPUOp.draw (6 * 2), GPUOp.submit] :=
  ⟨(setDataArray_quad_expansion ⟨none, 0⟩ [1, 2, 3, 4] 2 rfl (by norm_num)).1,
   (setDataArray_quad_expansion ⟨none, 0⟩ [1, 2, 3, 4] 2 rfl (by norm_num)).2.2⟩

/-- C10: in the point-list renderer, `setDataArray` with a null or empty
points array returns without creating a buffer and leaves the vertex buffer
and vertex count unchanged, so a subsequent `render` behaves exactly as
before the call — it still draws the previously set vertex count, and draws
nothing at all on a renderer that never received data. -/
theorem setDataArray_empty_noop :
    ∀ r : PointList.WebGPURenderer,
      PointList.WebGPURenderer.setDataArray r none = (r, [])
    ∧ PointList.WebGPURenderer.setDataArray r (some []) = (r, [])
    ∧ PointList.WebGPURenderer.render
        (PointList.WebGPURenderer.setDataArray r none).1 =
        PointList.WebGPURenderer.render r
    ∧ PointList.WebGPURenderer.render
        (PointList.WebGPURenderer.setDataArray r (some [])).1 =
        PointList.WebGPURenderer.render r
    ∧ PointList.WebGPURenderer.render ⟨none, 0⟩ = []
    ∧ ∀ (b : List ℚ) (n : ℕ), 0 < n →
        PointList.WebGPURenderer.render ⟨some b, n⟩ = [GPUOp.draw n, GPUOp.submit] := by
  intro r
  refine ⟨rfl, rfl, rfl, rfl, rfl, ?_⟩
  intro b n hn
  simp [PointList.WebGPURenderer.render, Nat.pos_iff_ne_zero.mp hn]

/-- Witness for `setDataArray_empty_noop`: a renderer holding one point keeps
drawing it after an empty `setDataArray`. -/
theorem setDataArray_empty_noop_witness :
    PointList.WebGPURenderer.setDataArray ⟨some [1, 2], 1⟩ none = (⟨some [1, 2], 1⟩, [])
  ∧ PointList.WebGPURenderer.render ⟨some [1, 2], 1⟩ = [GPUOp.draw 1, GPUOp.submit] :=
  ⟨(setDataArray_empty_noop ⟨some [1, 2], 1⟩).1,
   (setDataArray_empty_noop ⟨some [1, 2], 1⟩).2.2.2.2.2 [1, 2] 1 (by norm_num)⟩
